import Mathlib

/-!
Verification development for `scripts/reestimate_polya_emissions.py`.

The script re-estimates poly(A) HMM emission parameters: it reads two
samples TSV files and one segmentation TSV file, builds a per-read
segmentation index, classifies every new-model sample row into a region
(START, LEADER, ADAPTER, POLYA, TRANSCRIPT, or UNKNOWN), fits
distributions per region and optionally prints a log-likelihood
benchmark.

The embedding below follows the Python source closely:
* Python strings (read identifiers) are modelled as lists of characters,
  so that Python slicing `s[0:n]` becomes `List.take n`.
* Python dicts are modelled as association lists in insertion order;
  dict lookup is `lookupKey` (first entry with the key — keys are unique
  in an actual dict), and dict iteration order is the list order.
* Python floats are modelled as rationals (or reals where square roots,
  logarithms and densities are involved); a numeric field of a TSV row is
  modelled as an `Option` value: `none` stands for a cell on which the
  Python conversion `float(...)` / `int(...)` would raise, `some q` for a
  cell that converts to the number `q`.
* A reader that can raise is modelled with `Except Unit`.
-/

namespace Reestimate

/-- Read identifiers: Python strings, modelled as lists of characters so
that the slice `long_read_id[0:len(read_id)]` of `region_search` becomes
`List.take read_id.length long_read_id`. -/
abbrev ReadId := List Char

/-- Segmentation boundaries of one read, as stored by
`make_segmentation_dict` (source lines 121–124): the four values
`int(float(row[...]))` for `L_start`, `A_start`, `P_start`, `P_end`. -/
structure SegmentRow where
  L_start : Int
  A_start : Int
  P_start : Int
  P_end : Int
deriving DecidableEq, Repr

/-- The segmentation dictionary `segments` of the source: a Python dict
from read id to boundaries, modelled as an association list whose order
is the dict's insertion (= iteration) order. -/
abbrev SegmentationIndex := List (ReadId × SegmentRow)

/-- Python dict lookup `segmentations[read_key]`: the value of the first
entry carrying the key (entries of an actual dict have pairwise distinct
keys, so "first" is exact). -/
def lookupKey (id : ReadId) : SegmentationIndex → Option SegmentRow
  | [] => none
  | p :: rest => if p.1 = id then some p.2 else lookupKey id rest

/-- The match test of `region_search` (source line 142):
`long_read_id[0:len(read_id)] == read_id`. -/
def keyMatches (read_id key : ReadId) : Bool :=
  decide (key.take read_id.length = read_id)

/-- The lookup loop of `region_search` (source lines 140–143): scan all
keys in iteration order and remember the last one whose truncation to
`read_id`'s length equals `read_id`; `none` when no key ever matched. -/
def findReadKey (read_id : ReadId) (segs : SegmentationIndex) : Option ReadId :=
  segs.foldl (fun acc p => if keyMatches read_id p.1 then some p.1 else acc) none

/-- The boundary comparison chain of `region_search` (source lines
150–164), applied once a key has been matched. Labels are the source's
integer codes: 0 START, 1 LEADER, 2 ADAPTER, 3 POLYA, 5 TRANSCRIPT,
6 UNKNOWN (4 = CLIFF is never produced). -/
def classify_index (seg : SegmentRow) (sample_ix : Int) : Nat :=
  if sample_ix < seg.L_start then 0
  else if sample_ix < seg.A_start then 1
  else if sample_ix < seg.P_start then 2
  else if sample_ix ≤ seg.P_end then 3
  else if sample_ix > seg.P_end then 5
  else 6

/-- The classifier `region_search(read_id, sample_ix, segmentations)`
(source lines 128–164). -/
def region_search (read_id : ReadId) (sample_ix : Int)
    (segs : SegmentationIndex) : Nat :=
  match findReadKey read_id segs with
  | none => 6
  | some key =>
    match lookupKey key segs with
    | some seg => classify_index seg sample_ix
    | none => 6

/-- The index builder `make_segmentation_dict` (source lines 114–125):
start from the empty dict and, for each row in file order, insert its
(read id, boundaries) pair only when the read id is not yet a key.
Numeric conversion of the four boundary cells happens upstream of this
function in the model, so a row is already a `ReadId × SegmentRow`
pair. -/
def make_segmentation_dict (rows : List (ReadId × SegmentRow)) :
    SegmentationIndex :=
  rows.foldl
    (fun segs row =>
      if (lookupKey row.1 segs).isSome then segs else segs ++ [row]) []

/-- Specification-side helper: the boundaries of the first row of the
input that carries the given read id (used to state the
first-encountered-row-wins invariant of the index builder). -/
def firstSegRow (id : ReadId) : List (ReadId × SegmentRow) → Option SegmentRow
  | [] => none
  | r :: rs => if r.1 = id then some r.2 else firstSegRow id rs

/-- One row of a samples TSV (both dialects share the 13-column schema
`tag, read_id, chr, idx, sample, scaled_sample, s_llh, l_llh, a_llh,
p_llh, c_llh, t_llh, region`, source lines 72–73 and 187–188). Numeric
cells are stored as the result of attempting the Python conversion the
readers would apply: `none` models a cell whose conversion raises. -/
structure SampleRow where
  tag : String
  read_id : ReadId
  contig : String
  idx : Option Int
  sample : Option ℚ
  scaled_sample : Option ℚ
  s_llh : Option ℚ
  l_llh : Option ℚ
  a_llh : Option ℚ
  p_llh : Option ℚ
  c_llh : Option ℚ
  t_llh : Option ℚ
  region : String
deriving DecidableEq, Repr

/-- Output of `old_tsv_to_numpy`: the five per-region log-likelihood
collections (source lines 96–100). -/
structure OldData where
  S_loglkhd : List ℚ
  L_loglkhd : List ℚ
  A_loglkhd : List ℚ
  P_loglkhd : List ℚ
  T_loglkhd : List ℚ
deriving DecidableEq, Repr

/-- Output of `new_tsv_to_numpy`: the five per-region scaled-sample
collections (source lines 207–211). -/
structure NewData where
  S_samples : List ℚ
  L_samples : List ℚ
  A_samples : List ℚ
  P_samples : List ℚ
  T_samples : List ℚ
deriving DecidableEq, Repr

/-- The reader `old_tsv_to_numpy` (source lines 52–100). Per row it
converts the five cells `s_llh, l_llh, a_llh, p_llh, t_llh` with
`float(...)` — a failing conversion raises and aborts the whole read —
and appends the row's log-likelihood to the collection named by its
`region` cell. Cells the source never converts (`idx`, `sample`,
`scaled_sample`, `c_llh`) are left untouched. -/
def old_tsv_to_numpy : List SampleRow → Except Unit OldData
  | [] => .ok ⟨[], [], [], [], []⟩
  | row :: rest =>
    match row.s_llh, row.l_llh, row.a_llh, row.p_llh, row.t_llh with
    | some s, some l, some a, some p, some t =>
      match old_tsv_to_numpy rest with
      | .error e => .error e
      | .ok d =>
        .ok ⟨(if row.region = "START" then [s] else []) ++ d.S_loglkhd,
             (if row.region = "LEADER" then [l] else []) ++ d.L_loglkhd,
             (if row.region = "ADAPTER" then [a] else []) ++ d.A_loglkhd,
             (if row.region = "POLYA" then [p] else []) ++ d.P_loglkhd,
             (if row.region = "TRANSCRIPT" then [t] else []) ++ d.T_loglkhd⟩
    | _, _, _, _, _ => .error ()

/-- The reader `new_tsv_to_numpy` (source lines 167–211). Per row it
converts `scaled_sample` with `float(...)` and `idx` with `int(...)` — a
failing conversion raises and aborts the whole read — classifies the row
with `region_search`, and appends the scaled sample to the collection of
its region; rows classified 6 (UNKNOWN) fall through all five tests and
are dropped. Cells the source never converts (`sample`, the six
log-likelihood columns) are left untouched. -/
def new_tsv_to_numpy : List SampleRow → SegmentationIndex → Except Unit NewData
  | [], _ => .ok ⟨[], [], [], [], []⟩
  | row :: rest, segs =>
    match row.scaled_sample, row.idx with
    | some v, some ix =>
      match new_tsv_to_numpy rest segs with
      | .error e => .error e
      | .ok d =>
        let region := region_search row.read_id ix segs
        .ok ⟨(if region = 0 then [v] else []) ++ d.S_samples,
             (if region = 1 then [v] else []) ++ d.L_samples,
             (if region = 2 then [v] else []) ++ d.A_samples,
             (if region = 3 then [v] else []) ++ d.P_samples,
             (if region = 5 then [v] else []) ++ d.T_samples⟩
    | _, _ => .error ()

/-- Whether `old_tsv_to_numpy` can convert every cell it touches in this
row (the five region log-likelihood cells, source lines 77–81). -/
def oldRowParses (row : SampleRow) : Bool :=
  row.s_llh.isSome && row.l_llh.isSome && row.a_llh.isSome &&
    row.p_llh.isSome && row.t_llh.isSome

/-- Whether `new_tsv_to_numpy` can convert every cell it touches in this
row (`scaled_sample` and `idx`, source lines 191 and 194). -/
def newRowParses (row : SampleRow) : Bool :=
  row.scaled_sample.isSome && row.idx.isSome

/-- Whether a row of the new samples file is classified UNKNOWN by
`region_search` (label 6). Rows whose `idx` cell does not convert never
reach the classifier. -/
def rowUnknownNew (segs : SegmentationIndex) (row : SampleRow) : Bool :=
  match row.idx with
  | some ix => region_search row.read_id ix segs == 6
  | none => false

/-!
Output model of `main` (source lines 214–281). The claims about `main`
concern which lines are printed in which mode, so lines are modelled by
their kind and the region name they carry.
-/

/-- One line printed by `main`, identified by its kind. -/
inductive OutLine where
  | loadingMsg : OutLine
  | loadedMsg : OutLine
  | fittingMsg : OutLine
  | paramLine : String → OutLine
  | benchHeader : OutLine
  | benchRegionHeader : String → OutLine
  | benchValues : String → OutLine
deriving DecidableEq, Repr

/-- The seven fitted-parameter lines of `main` (source lines 241–247). -/
def param_output : List OutLine :=
  [.paramLine "START", .paramLine "LEADER", .paramLine "ADAPTER0",
   .paramLine "ADAPTER1", .paramLine "POLYA", .paramLine "TRANSCR0",
   .paramLine "TRANSCR1"]

/-- The benchmark block of `main` (source lines 253–281): one header,
then a region header and a value line for each of the five regions. -/
def benchmark_output : List OutLine :=
  [.benchHeader,
   .benchRegionHeader "START", .benchValues "START",
   .benchRegionHeader "LEADER", .benchValues "LEADER",
   .benchRegionHeader "ADAPTER", .benchValues "ADAPTER",
   .benchRegionHeader "POLYA", .benchValues "POLYA",
   .benchRegionHeader "TRANSCRIPT", .benchValues "TRANSCRIPT"]

/-- Everything `main` prints, as a function of the `benchmark` flag
(source lines 226–281): two loading messages, the fitting message, the
seven parameter lines, and — unless `main` returns early at lines
250–251 — the benchmark block. -/
def main_output (benchmark : Bool) : List OutLine :=
  [OutLine.loadingMsg, OutLine.loadedMsg, OutLine.fittingMsg]
    ++ param_output
    ++ (if benchmark then benchmark_output else [])

/-- The default of the `--benchmark` CLI option (source line 289,
`default=True`). -/
def benchmark_default : Bool := true

/-- Recognizer for fitted-parameter lines. -/
def isParamLine : OutLine → Bool
  | .paramLine _ => true
  | _ => false

/-- Recognizer for lines of the benchmark block. -/
def isBenchLine : OutLine → Bool
  | .benchHeader => true
  | .benchRegionHeader _ => true
  | .benchValues _ => true
  | _ => false

/-!
Real-valued part: the Gaussian fit and the mixture benchmark.
-/

open scoped Real

/-- Arithmetic mean of a list of samples (`np.mean`; division by zero
yields Lean's junk value 0 for the empty list, where numpy yields NaN). -/
noncomputable def sampleMean (xs : List ℝ) : ℝ := xs.sum / xs.length

/-- Maximum-likelihood variance of a list of samples: the mean squared
deviation from the sample mean (denominator `n`, not `n - 1`). -/
noncomputable def mlVariance (xs : List ℝ) : ℝ :=
  (xs.map (fun x => (x - sampleMean xs) ^ 2)).sum / xs.length

/-- Model of `scipy.stats.norm.fit(samples)`: the maximum-likelihood
normal fit, returned as `(loc, scale)` where `loc` is the sample mean
and `scale` is the maximum-likelihood standard deviation, i.e. the
square root of the ML variance. -/
noncomputable def norm_fit (xs : List ℝ) : ℝ × ℝ :=
  (sampleMean xs, Real.sqrt (mlVariance xs))

/-- The fitter `fit_gaussian(samples)` (source lines 36–39): it returns
`norm.fit(samples)` unchanged. -/
noncomputable def fit_gaussian (xs : List ℝ) : ℝ × ℝ := norm_fit xs

/-- Model of `scipy.stats.norm.pdf(x, loc, scale)`: the normal density
with the given location and scale. -/
noncomputable def norm_pdf (x loc scale : ℝ) : ℝ :=
  Real.exp (-((x - loc) ^ 2) / (2 * scale ^ 2)) / (scale * Real.sqrt (2 * π))

/-- The new average log-likelihood that `main` computes for a
mixture-fit region (ADAPTER, source lines 265–267; TRANSCRIPT, source
lines 277–279): build the two arrays
`llh_c = pi_c * norm.pdf(samples, mu_c, sqrt(var_c))`, add them
elementwise, take `np.log`, then `np.mean`. -/
noncomputable def mixture_new_avg_llh (samples : List ℝ)
    (pi0 mu0 var0 pi1 mu1 var1 : ℝ) : ℝ :=
  let llh0 := samples.map (fun x => pi0 * norm_pdf x mu0 (Real.sqrt var0))
  let llh1 := samples.map (fun x => pi1 * norm_pdf x mu1 (Real.sqrt var1))
  let logs := (List.zipWith (· + ·) llh0 llh1).map Real.log
  logs.sum / logs.length

/-- Specification-side definition of the mixture benchmark, following
the spec's words: the arithmetic mean over the region's samples of
`log(weight_0 * density_0(sample) + weight_1 * density_1(sample))`. -/
noncomputable def specMixtureAvgLogLkhd (samples : List ℝ)
    (pi0 mu0 var0 pi1 mu1 var1 : ℝ) : ℝ :=
  (samples.map (fun x =>
      Real.log (pi0 * norm_pdf x mu0 (Real.sqrt var0)
        + pi1 * norm_pdf x mu1 (Real.sqrt var1)))).sum / samples.length

/-!
Concrete fixtures used by witnesses and counterexamples.
-/

/-- Boundaries L=10, A=20, P=30, P_end=50 (the spec's worked example). -/
def exSeg : SegmentRow := ⟨10, 20, 30, 50⟩

/-- Singleton segmentation index holding read "r" with `exSeg`. -/
def exIndex : SegmentationIndex := [(['r'], exSeg)]

/-- Index with two keys sharing the one-character query "a" as a
truncation, with distinct boundary rows. -/
def twoKeyIndex : SegmentationIndex :=
  [(['a', 'b'], ⟨1, 2, 3, 4⟩), (['a', 'x'], ⟨5, 6, 7, 8⟩)]

/-- A fully well-formed samples row, for read "r" at sample index 5
(classified START against `exIndex`). -/
def exRowStart : SampleRow :=
  { tag := "polya-samples", read_id := ['r'], contig := "chr1",
    idx := some 5, sample := some 1, scaled_sample := some 3,
    s_llh := some 0, l_llh := some 0, a_llh := some 0, p_llh := some 0,
    c_llh := some 0, t_llh := some 0, region := "START" }

/-- A well-formed samples row whose read "z" has no key in `exIndex`
(classified UNKNOWN). -/
def exRowNoKey : SampleRow :=
  { exRowStart with read_id := ['z'], scaled_sample := some 7 }

/-- A row whose `scaled_sample` cell does not convert — the new reader
aborts on it. -/
def exRowNewBad : SampleRow := { exRowStart with scaled_sample := none }

/-- A row whose `t_llh` cell does not convert — the old reader aborts on
it. -/
def exRowOldBad : SampleRow := { exRowStart with t_llh := none }

/-- A row whose `s_llh` cell does not convert; the new reader never
converts that cell, so it processes this row without error. -/
def exRowBadLlh : SampleRow := { exRowStart with s_llh := none }

/-- A row whose `idx` cell does not convert; the old reader never
converts that cell, so it processes this row without error. -/
def exRowBadIdx : SampleRow := { exRowStart with idx := none }

/-- The aggregation the new reader produces from
`[exRowStart, exRowNoKey]` against `exIndex`. -/
def exNewData : NewData := ⟨[3], [], [], [], []⟩

/-!
Helper lemmas.
-/

/-- Helper: the lookup loop of `region_search`, run with an arbitrary
initial accumulator, ends with the first matching entry of the reversed
index (= the last matching entry in iteration order), and with the
initial accumulator when nothing matches. -/
theorem findReadKey_loop_eq (rid : ReadId) (segs : SegmentationIndex) :
    ∀ init : Option ReadId,
      segs.foldl (fun acc p => if keyMatches rid p.1 then some p.1 else acc) init
        = match segs.reverse.find? (fun p => keyMatches rid p.1) with
          | some q => some q.1
          | none => init := by
  induction segs with
  | nil => intro init; simp
  | cons p l ih =>
    intro init
    simp only [List.foldl_cons, List.reverse_cons]
    rw [ih, List.find?_append]
    cases h : l.reverse.find? (fun q => keyMatches rid q.1) with
    | some q => simp [Option.or]
    | none =>
      by_cases hm : keyMatches rid p.1 <;> simp [Option.or, List.find?, hm]

/-- Helper: `findReadKey` returns the key of the first matching entry of
the reversed index. -/
theorem findReadKey_eq_find_reverse (rid : ReadId) (segs : SegmentationIndex) :
    findReadKey rid segs
      = (segs.reverse.find? (fun p => keyMatches rid p.1)).map Prod.fst := by
  rw [findReadKey, findReadKey_loop_eq]
  cases h : segs.reverse.find? (fun p => keyMatches rid p.1) <;> simp

/-- Helper: the boundary comparison chain never yields the defensive
label 6 — its last two tests cover all integers. -/
theorem classify_index_ne_six (seg : SegmentRow) (i : Int) :
    classify_index seg i ≠ 6 := by
  simp only [classify_index]
  split_ifs <;> omega

/-- Helper: a dict lookup over an appended list inspects the left part
first. -/
theorem lookupKey_append (id : ReadId) (l1 l2 : SegmentationIndex) :
    lookupKey id (l1 ++ l2)
      = match lookupKey id l1 with
        | some v => some v
        | none => lookupKey id l2 := by
  induction l1 with
  | nil => simp [lookupKey]
  | cons p rest ih =>
    by_cases h : p.1 = id <;> simp [lookupKey, h, ih]

/-- Helper: a dict lookup fails exactly when the id is not among the
keys. -/
theorem lookupKey_eq_none_iff (id : ReadId) (l : SegmentationIndex) :
    lookupKey id l = none ↔ id ∉ l.map Prod.fst := by
  induction l with
  | nil => simp [lookupKey]
  | cons p rest ih =>
    simp only [List.map_cons, List.mem_cons]
    by_cases h : p.1 = id
    · simp only [lookupKey, if_pos h]
      constructor
      · intro hc; cases hc
      · intro hc; exact absurd (Or.inl h.symm) hc
    · simp only [lookupKey, if_neg h]
      rw [ih]
      constructor
      · intro hm hc
        rcases hc with he | hmem
        · exact h he.symm
        · exact hm hmem
      · intro hc hm
        exact hc (Or.inr hm)

/-- Helper: a dict lookup succeeds exactly when the id is among the
keys. -/
theorem lookupKey_isSome_iff (id : ReadId) (l : SegmentationIndex) :
    (lookupKey id l).isSome ↔ id ∈ l.map Prod.fst := by
  induction l with
  | nil => simp [lookupKey]
  | cons p rest ih =>
    simp only [List.map_cons, List.mem_cons]
    by_cases h : p.1 = id
    · simp only [lookupKey, if_pos h, Option.isSome_some]
      constructor
      · intro _; exact Or.inl h.symm
      · intro _; trivial
    · simp only [lookupKey, if_neg h]
      rw [ih]
      constructor
      · exact Or.inr
      · rintro (he | hm)
        · exact absurd he.symm h
        · exact hm

/-- Helper: on a list with pairwise distinct keys, looking up the key of
a member entry returns that entry's value. -/
theorem lookupKey_of_mem_nodup (segs : SegmentationIndex)
    (p : ReadId × SegmentRow) (hnd : (segs.map Prod.fst).Nodup)
    (hp : p ∈ segs) : lookupKey p.1 segs = some p.2 := by
  induction segs with
  | nil => cases hp
  | cons q rest ih =>
    simp only [List.map_cons, List.nodup_cons] at hnd
    rcases List.mem_cons.mp hp with h | h
    · subst h; simp [lookupKey]
    · have hne : q.1 ≠ p.1 := by
        intro he
        exact hnd.1 (he ▸ List.mem_map_of_mem Prod.fst h)
      simp only [lookupKey, if_neg hne]
      exact ih hnd.2 h

/-- Helper: the empty read id matches every key, so the match scan over
any index degenerates to taking its head (of the reversed index). -/
theorem find_keyMatches_nil_eq_head (l : SegmentationIndex) :
    l.find? (fun p => keyMatches ([] : ReadId) p.1) = l.head? := by
  cases l with
  | nil => rfl
  | cons p rest => simp [List.find?, keyMatches]

/-- Helper: `firstSegRow` coincides with dict lookup on the raw row
list. -/
theorem firstSegRow_eq_lookupKey (id : ReadId)
    (rows : List (ReadId × SegmentRow)) :
    firstSegRow id rows = lookupKey id rows := by
  induction rows with
  | nil => rfl
  | cons r rest ih => simp [firstSegRow, lookupKey, ih]

/-!
Claim theorems.
-/

/-- C2: whenever the key scan of `region_search` resolves the queried
read id to an entry with boundaries (L_start, A_start, P_start, P_end),
the classifier returns 0 (START) if the sample index is < L_start, else
1 (LEADER) if < A_start, else 2 (ADAPTER) if < P_start, else 3 (POLYA)
if ≤ P_end, else 5 (TRANSCRIPT), the five conditions being tested in
exactly this order. -/
theorem region_search_boundary_semantics (segs : SegmentationIndex)
    (rid : ReadId) (i : Int) (key : ReadId) (seg : SegmentRow)
    (hfind : findReadKey rid segs = some key)
    (hseg : lookupKey key segs = some seg) :
    region_search rid i segs
      = (if i < seg.L_start then 0
         else if i < seg.A_start then 1
         else if i < seg.P_start then 2
         else if i ≤ seg.P_end then 3
         else 5) := by
  simp only [region_search, hfind, hseg, classify_index]
  split_ifs <;> omega

/-- Witness for C2: against the singleton index with boundaries L=10,
A=20, P=30, P_end=50, sample indices 5, 15, 25, 30, 50, 51 classify to
START, LEADER, ADAPTER, POLYA, POLYA, TRANSCRIPT respectively. -/
theorem region_search_boundary_semantics_witness :
    region_search ['r'] 5 exIndex = 0 ∧ region_search ['r'] 15 exIndex = 1
      ∧ region_search ['r'] 25 exIndex = 2 ∧ region_search ['r'] 30 exIndex = 3
      ∧ region_search ['r'] 50 exIndex = 3
      ∧ region_search ['r'] 51 exIndex = 5 :=
  ⟨(region_search_boundary_semantics exIndex ['r'] 5 ['r'] exSeg
      (by decide) (by decide)).trans (by decide),
   (region_search_boundary_semantics exIndex ['r'] 15 ['r'] exSeg
      (by decide) (by decide)).trans (by decide),
   (region_search_boundary_semantics exIndex ['r'] 25 ['r'] exSeg
      (by decide) (by decide)).trans (by decide),
   (region_search_boundary_semantics exIndex ['r'] 30 ['r'] exSeg
      (by decide) (by decide)).trans (by decide),
   (region_search_boundary_semantics exIndex ['r'] 50 ['r'] exSeg
      (by decide) (by decide)).trans (by decide),
   (region_search_boundary_semantics exIndex ['r'] 51 ['r'] exSeg
      (by decide) (by decide)).trans (by decide)⟩

/-- C3: the key scan of `region_search` selects the last indexed key (in
iteration order) whose truncation to the query's length equals the
query — stated as: the first matching entry of the reversed index — and
when no indexed key matches the query this way, `region_search` returns
6 (UNKNOWN) for every sample index. -/
theorem region_search_last_match_wins (segs : SegmentationIndex)
    (rid : ReadId) (i : Int) :
    findReadKey rid segs
        = (segs.reverse.find? (fun p => keyMatches rid p.1)).map Prod.fst
      ∧ ((∀ p ∈ segs, p.1.take rid.length ≠ rid) →
          region_search rid i segs = 6) := by
  refine ⟨findReadKey_eq_find_reverse rid segs, fun h => ?_⟩
  have hf : segs.reverse.find? (fun p => keyMatches rid p.1) = none := by
    apply List.find?_eq_none.mpr
    intro p hp
    simp only [keyMatches, decide_eq_true_eq]
    exact h p (List.mem_reverse.mp hp)
  have hnone : findReadKey rid segs = none := by
    rw [findReadKey_eq_find_reverse, hf]; rfl
  simp only [region_search, hnone]

/-- Witness for C3: in the two-key index both keys extend the query
"a", and the scan returns the later key "ax"; the query "z" matches no
key and classifies to 6 (UNKNOWN). -/
theorem region_search_last_match_wins_witness :
    findReadKey ['a'] twoKeyIndex = some ['a', 'x']
      ∧ region_search ['z'] 0 twoKeyIndex = 6 :=
  ⟨((region_search_last_match_wins twoKeyIndex ['a'] 0).1).trans (by decide),
   (region_search_last_match_wins twoKeyIndex ['z'] 0).2 (by decide)⟩

/-- C9: when the key scan succeeds and the matched entry's boundaries
are monotone (L_start ≤ A_start ≤ P_start ≤ P_end), the five ordered
comparisons are collectively exhaustive: the defensive label 6 (UNKNOWN)
is unreachable and the result is one of the five region labels. -/
theorem region_search_exhaustive_after_match (segs : SegmentationIndex)
    (rid : ReadId) (i : Int) (key : ReadId) (seg : SegmentRow)
    (hfind : findReadKey rid segs = some key)
    (hseg : lookupKey key segs = some seg)
    (h1 : seg.L_start ≤ seg.A_start) (h2 : seg.A_start ≤ seg.P_start)
    (h3 : seg.P_start ≤ seg.P_end) :
    region_search rid i segs ≠ 6
      ∧ region_search rid i segs ∈ ([0, 1, 2, 3, 5] : List Nat) := by
  simp only [region_search, hfind, hseg, classify_index]
  split_ifs <;> first
    | exact ⟨by decide, by decide⟩
    | (exfalso; omega)

/-- Witness for C9: on the singleton index with monotone boundaries the
classifier never answers 6, e.g. at sample index 7. -/
theorem region_search_exhaustive_after_match_witness :
    region_search ['r'] 7 exIndex ≠ 6
      ∧ region_search ['r'] 7 exIndex ∈ ([0, 1, 2, 3, 5] : List Nat) :=
  region_search_exhaustive_after_match exIndex ['r'] 7 ['r'] exSeg
    (by decide) (by decide) (by decide) (by decide) (by decide)

/-- C10: on a non-empty index with pairwise distinct keys (a Python dict
always has distinct keys), the empty read id matches every key, so the
scan selects the last indexed entry, and the classifier returns that
entry's region — never 6 (UNKNOWN) — for every sample index. -/
theorem region_search_empty_readid (segs : SegmentationIndex) (i : Int)
    (h : segs ≠ []) (hnd : (segs.map Prod.fst).Nodup) :
    findReadKey [] segs = some (segs.getLast h).1
      ∧ region_search [] i segs = classify_index (segs.getLast h).2 i
      ∧ region_search [] i segs ≠ 6 := by
  have hfind : findReadKey [] segs = some (segs.getLast h).1 := by
    rw [findReadKey_eq_find_reverse, find_keyMatches_nil_eq_head,
      List.head?_reverse, List.getLast?_eq_getLast segs h]
    rfl
  have hlook : lookupKey (segs.getLast h).1 segs = some (segs.getLast h).2 :=
    lookupKey_of_mem_nodup segs (segs.getLast h) hnd (List.getLast_mem h)
  refine ⟨hfind, ?_, ?_⟩
  · simp only [region_search, hfind, hlook]
  · simp only [region_search, hfind, hlook]
    exact classify_index_ne_six _ _

/-- Witness for C10: classifying the empty read id against the singleton
index matches the (only and last) key "r" and does not return 6. -/
theorem region_search_empty_readid_witness :
    findReadKey [] exIndex = some ['r']
      ∧ region_search [] 5 exIndex ≠ 6 :=
  ⟨((region_search_empty_readid exIndex 5 (by decide) (by decide)).1).trans
      (by decide),
   (region_search_empty_readid exIndex 5 (by decide) (by decide)).2.2⟩

/-- Helper: lookups into the dict built by the insertion loop of
`make_segmentation_dict`, for an arbitrary initial dict: an id already
present keeps its value, an absent id gets the first row of the input
carrying it. -/
theorem make_loop_lookup (id : ReadId) (rows : List (ReadId × SegmentRow)) :
    ∀ init : SegmentationIndex,
      lookupKey id (rows.foldl
        (fun segs row =>
          if (lookupKey row.1 segs).isSome then segs else segs ++ [row]) init)
        = match lookupKey id init with
          | some v => some v
          | none => firstSegRow id rows := by
  induction rows with
  | nil =>
    intro init
    cases h : lookupKey id init <;> simp [firstSegRow, h]
  | cons r rest ih =>
    intro init
    simp only [List.foldl_cons]
    rw [ih]
    by_cases hr : (lookupKey r.1 init).isSome
    · rw [if_pos hr]
      cases h : lookupKey id init with
      | some v => rfl
      | none =>
        by_cases he : r.1 = id
        · exfalso; rw [he, h] at hr; simp at hr
        · simp [firstSegRow, he]
    · rw [if_neg hr, lookupKey_append]
      cases h : lookupKey id init with
      | some v => rfl
      | none =>
        by_cases he : r.1 = id
        · simp [lookupKey, he, firstSegRow]
        · simp [lookupKey, he, firstSegRow]

/-- Helper: the insertion loop of `make_segmentation_dict` preserves
distinctness of the keys. -/
theorem make_loop_nodup (rows : List (ReadId × SegmentRow)) :
    ∀ init : SegmentationIndex, (init.map Prod.fst).Nodup →
      ((rows.foldl
        (fun segs row =>
          if (lookupKey row.1 segs).isSome then segs else segs ++ [row])
          init).map Prod.fst).Nodup := by
  induction rows with
  | nil => intro init h; simpa using h
  | cons r rest ih =>
    intro init h
    simp only [List.foldl_cons]
    by_cases hr : (lookupKey r.1 init).isSome
    · rw [if_pos hr]; exact ih init h
    · rw [if_neg hr]
      apply ih
      have hmem : r.1 ∉ init.map Prod.fst := by
        rw [← lookupKey_eq_none_iff]
        cases hq : lookupKey r.1 init
        · rfl
        · rw [hq] at hr; simp at hr
      simp [List.nodup_append, h, hmem]

/-- C4: the built index has exactly one entry per unique read id of the
input (its keys are pairwise distinct and are exactly the ids occurring
in the input), and each id is mapped to the boundaries of the
first-encountered row carrying it; later rows with the same id leave the
index unchanged (and `make_segmentation_dict` is total, so no error can
occur). -/
theorem make_segmentation_dict_first_seen_wins
    (rows : List (ReadId × SegmentRow)) :
    ((make_segmentation_dict rows).map Prod.fst).Nodup
      ∧ (∀ id, lookupKey id (make_segmentation_dict rows) = firstSegRow id rows)
      ∧ (∀ id, id ∈ (make_segmentation_dict rows).map Prod.fst
          ↔ id ∈ rows.map Prod.fst) := by
  have h2 : ∀ id,
      lookupKey id (make_segmentation_dict rows) = firstSegRow id rows := by
    intro id
    rw [make_segmentation_dict, make_loop_lookup]
    rfl
  refine ⟨?_, h2, fun id => ?_⟩
  · rw [make_segmentation_dict]
    exact make_loop_nodup rows [] (by simp)
  · rw [← lookupKey_isSome_iff, h2 id, firstSegRow_eq_lookupKey,
      lookupKey_isSome_iff]

/-- Helper: `region_search` only ever returns one of the six labels 0,
1, 2, 3, 5, 6. -/
theorem region_search_label_cases (rid : ReadId) (i : Int)
    (segs : SegmentationIndex) :
    region_search rid i segs = 0 ∨ region_search rid i segs = 1
      ∨ region_search rid i segs = 2 ∨ region_search rid i segs = 3
      ∨ region_search rid i segs = 5 ∨ region_search rid i segs = 6 := by
  cases hf : findReadKey rid segs with
  | none => simp [region_search, hf]
  | some key =>
    cases hl : lookupKey key segs with
    | none => simp [region_search, hf, hl]
    | some seg =>
      simp only [region_search, hf, hl, classify_index]
      split_ifs <;> simp

/-- C5: when the new reader succeeds, the sizes of its five per-region
collections plus the number of rows classified UNKNOWN add up to the
total number of rows; UNKNOWN rows are dropped without error and are
counted in no collection. -/
theorem new_tsv_partition (rows : List SampleRow) (segs : SegmentationIndex)
    (d : NewData) (h : new_tsv_to_numpy rows segs = .ok d) :
    d.S_samples.length + d.L_samples.length + d.A_samples.length
      + d.P_samples.length + d.T_samples.length
      + rows.countP (rowUnknownNew segs) = rows.length := by
  induction rows generalizing d with
  | nil =>
    simp only [new_tsv_to_numpy, Except.ok.injEq] at h
    subst h
    simp
  | cons row rest ih =>
    simp only [new_tsv_to_numpy] at h
    rcases hs : row.scaled_sample with _ | v
    · rw [hs] at h; simp at h
    rcases hi : row.idx with _ | ix
    · rw [hs, hi] at h; simp at h
    rcases hrec : new_tsv_to_numpy rest segs with e | d'
    · rw [hs, hi, hrec] at h; simp at h
    rw [hs, hi, hrec] at h
    simp only [Except.ok.injEq] at h
    subst h
    have IH := ih d' hrec
    rcases region_search_label_cases row.read_id ix segs
      with h6 | h6 | h6 | h6 | h6 | h6 <;>
      · simp only [List.countP_cons, rowUnknownNew, hi, h6,
          List.length_append]
        simp
        omega

/-- Witness for C5: of the two rows read against the singleton index,
one lands in the START collection and one is UNKNOWN, and 1 + 1 = 2. -/
theorem new_tsv_partition_witness :
    exNewData.S_samples.length + exNewData.L_samples.length
      + exNewData.A_samples.length + exNewData.P_samples.length
      + exNewData.T_samples.length
      + [exRowStart, exRowNoKey].countP (rowUnknownNew exIndex) = 2 :=
  new_tsv_partition [exRowStart, exRowNoKey] exIndex exNewData (by rfl)

/-- Helper: the old reader aborts at the first row one of whose five
converted cells fails to convert, regardless of what follows. -/
theorem old_reader_abort_helper (bad : SampleRow)
    (hbad : oldRowParses bad = false) :
    ∀ pre post : List SampleRow, (∀ r ∈ pre, oldRowParses r = true) →
      old_tsv_to_numpy (pre ++ bad :: post) = .error () := by
  intro pre
  induction pre with
  | nil =>
    intro post _
    simp only [List.nil_append]
    rcases h1 : bad.s_llh with _ | s
    · simp [old_tsv_to_numpy, h1]
    rcases h2 : bad.l_llh with _ | l
    · simp [old_tsv_to_numpy, h1, h2]
    rcases h3 : bad.a_llh with _ | a
    · simp [old_tsv_to_numpy, h1, h2, h3]
    rcases h4 : bad.p_llh with _ | p
    · simp [old_tsv_to_numpy, h1, h2, h3, h4]
    rcases h5 : bad.t_llh with _ | t
    · simp [old_tsv_to_numpy, h1, h2, h3, h4, h5]
    simp [oldRowParses, h1, h2, h3, h4, h5] at hbad
  | cons g pre ih =>
    intro post hpre
    have hg : oldRowParses g = true := hpre g (List.mem_cons_self g pre)
    have hpre' : ∀ r ∈ pre, oldRowParses r = true :=
      fun r hr => hpre r (List.mem_cons_of_mem g hr)
    simp only [oldRowParses, Bool.and_eq_true] at hg
    obtain ⟨⟨⟨⟨hgs, hgl⟩, hga⟩, hgp⟩, hgt⟩ := hg
    obtain ⟨s, hs⟩ := Option.isSome_iff_exists.mp hgs
    obtain ⟨l, hl⟩ := Option.isSome_iff_exists.mp hgl
    obtain ⟨a, ha⟩ := Option.isSome_iff_exists.mp hga
    obtain ⟨p, hp⟩ := Option.isSome_iff_exists.mp hgp
    obtain ⟨t, ht⟩ := Option.isSome_iff_exists.mp hgt
    rw [List.cons_append]
    simp [old_tsv_to_numpy, hs, hl, ha, hp, ht, ih post hpre']

/-- Helper: the new reader aborts at the first row whose `scaled_sample`
or `idx` cell fails to convert, regardless of what follows. -/
theorem new_reader_abort_helper (segs : SegmentationIndex) (bad : SampleRow)
    (hbad : newRowParses bad = false) :
    ∀ pre post : List SampleRow, (∀ r ∈ pre, newRowParses r = true) →
      new_tsv_to_numpy (pre ++ bad :: post) segs = .error () := by
  intro pre
  induction pre with
  | nil =>
    intro post _
    simp only [List.nil_append]
    rcases h1 : bad.scaled_sample with _ | v
    · simp [new_tsv_to_numpy, h1]
    rcases h2 : bad.idx with _ | ix
    · simp [new_tsv_to_numpy, h1, h2]
    simp [newRowParses, h1, h2] at hbad
  | cons g pre ih =>
    intro post hpre
    have hg : newRowParses g = true := hpre g (List.mem_cons_self g pre)
    have hpre' : ∀ r ∈ pre, newRowParses r = true :=
      fun r hr => hpre r (List.mem_cons_of_mem g hr)
    simp only [newRowParses, Bool.and_eq_true] at hg
    obtain ⟨hgv, hgi⟩ := hg
    obtain ⟨v, hv⟩ := Option.isSome_iff_exists.mp hgv
    obtain ⟨ix, hix⟩ := Option.isSome_iff_exists.mp hgi
    rw [List.cons_append]
    simp [new_tsv_to_numpy, hv, hix, ih post hpre']

/-- C8 counterexample: a row with a non-numeric value in a numeric
schema field need not abort the run. The new reader ignores the `s_llh`
column, so it processes a row whose `s_llh` cell does not convert
without error; symmetrically the old reader ignores the `idx` column. -/
theorem malformed_numeric_field_not_always_fatal :
    exRowBadLlh.s_llh = none
      ∧ new_tsv_to_numpy [exRowBadLlh] exIndex = .ok ⟨[3], [], [], [], []⟩
      ∧ exRowBadIdx.idx = none
      ∧ old_tsv_to_numpy [exRowBadIdx] = .ok ⟨[0], [], [], [], []⟩ :=
  ⟨rfl, rfl, rfl, rfl⟩

/-- C8 amended: for every input file containing a row with a
non-convertible value in a numeric field that the reader actually
converts (old reader: the five region log-likelihood cells; new reader:
`scaled_sample` and `idx`), parsing fails with a fatal error that aborts
the whole run at the first such row: the result is `error` no matter
what rows follow, with no partial-row recovery or row-skipping. -/
theorem tsv_readers_abort_on_first_unconverted_row :
    (∀ pre bad post, oldRowParses bad = false →
        (∀ r ∈ pre, oldRowParses r = true) →
        old_tsv_to_numpy (pre ++ bad :: post) = .error ())
      ∧ (∀ segs pre bad post, newRowParses bad = false →
          (∀ r ∈ pre, newRowParses r = true) →
          new_tsv_to_numpy (pre ++ bad :: post) segs = .error ()) :=
  ⟨fun pre bad post hbad hpre => old_reader_abort_helper bad hbad pre post hpre,
   fun segs pre bad post hbad hpre =>
     new_reader_abort_helper segs bad hbad pre post hpre⟩

/-- Witness for C8 (amended): both readers answer `error` on a
three-row file whose middle row has a non-convertible converted cell. -/
theorem tsv_readers_abort_witness :
    old_tsv_to_numpy [exRowStart, exRowOldBad, exRowNoKey] = .error ()
      ∧ new_tsv_to_numpy [exRowStart, exRowNewBad, exRowNoKey] exIndex
          = .error () :=
  ⟨tsv_readers_abort_on_first_unconverted_row.1 [exRowStart] exRowOldBad
      [exRowNoKey] (by decide) (by decide),
   tsv_readers_abort_on_first_unconverted_row.2 exIndex [exRowStart]
      exRowNewBad [exRowNoKey] (by decide) (by decide)⟩

/-- C1 (refuting evaluation): on the samples [0, 4] the maximum-
likelihood variance is 4, but `fit_gaussian` returns (2, 2): its second
component is the ML standard deviation √4 = 2, not the ML variance. The
code of `main` nonetheless labels this second component "var" and prints
its square root as "stdv", so the printed standard deviation is
√(std) = √2 rather than 2. -/
theorem fit_gaussian_second_is_stdev_not_variance :
    fit_gaussian [0, 4] = (2, 2)
      ∧ mlVariance [0, 4] = 4
      ∧ (fit_gaussian [0, 4]).2 ≠ mlVariance [0, 4] := by
  have hmean : sampleMean [0, 4] = 2 := by
    simp [sampleMean]
    norm_num
  have hvar : mlVariance [0, 4] = 4 := by
    simp [mlVariance, hmean]
    norm_num
  have hsqrt : Real.sqrt 4 = 2 := by
    rw [show (4 : ℝ) = 2 ^ 2 by norm_num]
    exact Real.sqrt_sq (by norm_num)
  refine ⟨?_, hvar, ?_⟩
  · simp [fit_gaussian, norm_fit, hmean, hvar, hsqrt]
  · simp only [fit_gaussian, norm_fit, hvar, hsqrt]
    norm_num

/-- Helper: zipping two pointwise maps of the same list with addition is
the map of the pointwise sum. -/
theorem zipWith_add_map (s : List ℝ) (f g : ℝ → ℝ) :
    List.zipWith (· + ·) (s.map f) (s.map g) = s.map (fun x => f x + g x) := by
  induction s with
  | nil => rfl
  | cons x xs ih => simp [ih]

/-- C6: the mixture benchmark value computed by `main` for ADAPTER and
TRANSCRIPT — elementwise weighted component densities, added, then
logged, then averaged — equals the arithmetic mean over the samples of
the plain logarithm of the summed weighted component densities (not a
sum of per-component log-densities and not a log-sum-exp). -/
theorem mixture_benchmark_is_log_of_summed_densities
    (samples : List ℝ) (pi0 mu0 var0 pi1 mu1 var1 : ℝ) :
    mixture_new_avg_llh samples pi0 mu0 var0 pi1 mu1 var1
      = specMixtureAvgLogLkhd samples pi0 mu0 var0 pi1 mu1 var1 := by
  simp only [mixture_new_avg_llh, specMixtureAvgLogLkhd]
  rw [zipWith_add_map, List.map_map]
  simp only [List.length_map, Function.comp_def]

/-- C7: the `--benchmark` option defaults to true, and with the flag
false `main` returns before the benchmark block: it prints no benchmark
line, and its parameter lines are exactly the seven lines START, LEADER,
ADAPTER0, ADAPTER1, POLYA, TRANSCR0, TRANSCR1. -/
theorem benchmark_default_true_and_false_skips_benchmark :
    benchmark_default = true
      ∧ main_output false
          = [OutLine.loadingMsg, OutLine.loadedMsg, OutLine.fittingMsg]
              ++ param_output
      ∧ (main_output false).filter isBenchLine = []
      ∧ (main_output false).filter isParamLine = param_output :=
  ⟨rfl, rfl, rfl, rfl⟩

end Reestimate
